import Mathlib

/-!
Verification of the multi-agent task-orchestration core of Open_Manus_AI.

The development shallowly embeds the two orchestration modules of the
repository:

* `MA`  models `src/modules/multi_agent.py` (base `Agent`,
  `MultiAgentSystem`, the collaborative fan-out/fan-in protocol and
  `_combine_results`);
* `EMA` models `src/modules/enhanced_multi_agent.py` (`EnhancedAgent`
  with progress reporting, the enhanced `MultiAgentSystem` registry,
  keyword routing and status aggregation).

Python dictionaries with a fixed set of keys are embedded as structures
whose optional fields are `Option`-valued (a missing key is `none`);
`dict` collections keyed by strings are association lists in insertion
order; in-place mutation of a caller's dict is embedded as returning the
updated value; the per-agent worker thread is embedded as explicit
sequential processing of the FIFO queue; `time.time()` /
`datetime.now()` values are supplied as explicit `Nat` clock arguments;
`uuid.uuid4()` is supplied through a deterministic fresh-name counter.
Task executors (`_execute_task`, opaque in the spec) are parameters of
type `TaskDict → Except String Value`, an exception being modelled by the
`Except.error` case, and for the enhanced agent additionally report a
list of progress updates made through `update_progress` during the run.
-/

/-- Value produced by a task executor; its contents are opaque to the
orchestration core, so a string stands for an arbitrary payload. -/
abbrev Value := String

/-- Check that `p` is a character-wise prefix of `l`. -/
def startsWithChars (p l : List Char) : Bool :=
  match p, l with
  | [], _ => true
  | _ :: _, [] => false
  | a :: ps, b :: ls => a == b && startsWithChars ps ls

/-- Check that `p` occurs as a contiguous sublist of `l`. -/
def hasSubChars (l p : List Char) : Bool :=
  match l with
  | [] => p.isEmpty
  | _ :: rest => startsWithChars p l || hasSubChars rest p

/-- Python's substring test `pat in s`. -/
def strContains (s pat : String) : Bool :=
  hasSubChars s.toList pat.toList

/-- Python's `str.lower()` over the code points, written by structural
recursion so that concrete runs evaluate. -/
def strToLower (s : String) : String := String.mk (s.toList.map Char.toLower)

/-- Python truthiness of an optional string (`None` and `""` are falsy). -/
def optStrTruthy : Option String → Bool
  | none => false
  | some s => !(s == "")

/-- Lookup in an association list (a Python `dict` read `d.get(k)`). -/
def alookup {β : Type} (l : List (String × β)) (k : String) : Option β :=
  match l with
  | [] => none
  | (k', v) :: rest => if k' = k then some v else alookup rest k

/-- Write `d[k] = v` on an association list: replace the binding in
place if the key is present, append it otherwise (Python dicts keep
insertion order). -/
def aset {β : Type} (l : List (String × β)) (k : String) (v : β) : List (String × β) :=
  match l with
  | [] => [(k, v)]
  | (k', v') :: rest => if k' = k then (k, v) :: rest else (k', v') :: aset rest k v

/-- Deterministic stand-in for `str(uuid.uuid4())`: the `n`-th fresh id. -/
def genId (n : Nat) : String := "task-" ++ toString n

/-- Task dictionary: the keys the orchestration core reads or writes.
A missing key is `none` (for keys read with a default, the default is
the initial field value). -/
structure TaskDict where
  id : Option String := none
  type : String := ""
  task_type : String := ""
  symbol : Option String := none
  status : Option String := none
  assigned_time : Option Nat := none
  progress : Option Nat := none
  query : String := ""
  description : String := ""
deriving DecidableEq

/-- Id under which a task is tracked once assigned (`task['id']`;
always present on any task that reached an agent's queue). -/
def taskId (t : TaskDict) : String := t.id.getD ""

namespace MA

/-- Snapshot stored in `Agent.results` by `multi_agent.py`: the dicts
`{'status': ...}`, `{'status': 'completed', 'result': ..., 'completion_time': ...}`
and `{'status': 'failed', 'error': ..., 'completion_time': ...}`. -/
structure Snapshot where
  status : String
  result : Option Value := none
  error : Option String := none
  completion_time : Option Nat := none
deriving DecidableEq

/-- Base agent state: FIFO queue and per-task snapshots. -/
structure Agent where
  queue : List TaskDict := []
  results : List (String × Snapshot) := []
  running : Bool := true
deriving DecidableEq

/-- The base orchestrator state (`MultiAgentSystem`): agents keyed by
the id used at `create_agent`, the task-to-agent assignment map, and
the fresh-id counter standing for `uuid.uuid4()`. -/
structure MultiAgentSystem where
  agents : List (String × Agent)
  task_assignments : List (String × String) := []
  ctr : Nat := 0
deriving DecidableEq

/-- `Agent.assign_task`: write id, status `'assigned'` and the
assignment time into the caller's task dict, enqueue it, and create the
initial `{'status': 'pending'}` snapshot. `fresh` stands for the
`uuid.uuid4()` default used only when the task has no id (the
orchestrator always writes an id first). -/
def Agent.assign_task (a : Agent) (task : TaskDict) (fresh : String) (now : Nat) :
    TaskDict × Agent × String :=
  let tid := task.id.getD fresh
  let task := { task with id := some tid, status := some "assigned", assigned_time := some now }
  (task,
   { a with queue := a.queue ++ [task],
            results := aset a.results tid { status := "pending" } },
   tid)

/-- `Agent.get_result`: the snapshot for the id, or the unknown sentinel. -/
def Agent.get_result (a : Agent) (tid : String) : Snapshot :=
  (alookup a.results tid).getD { status := "unknown" }

/-- One iteration of `Agent._process_tasks` on a dequeued task: set the
`'processing'` snapshot, run the executor, and store the terminal
snapshot (`'completed'` with the result, or `'failed'` with `str(e)`). -/
def Agent.processTask (ex : TaskDict → Except String Value) (now : Nat)
    (a : Agent) (task : TaskDict) : Agent :=
  let tid := taskId task
  let a := { a with results := aset a.results tid { status := "processing" } }
  match ex task with
  | Except.ok r =>
      let snap : Snapshot := { status := "completed", result := some r, completion_time := some now }
      { a with results := aset a.results tid snap }
  | Except.error e =>
      let snap : Snapshot := { status := "failed", error := some e, completion_time := some now }
      { a with results := aset a.results tid snap }

/-- Run the worker loop until the queue is drained (every queued task
reaches a terminal state before the collaborative deadline). -/
def Agent.runQueue (ex : TaskDict → Except String Value) (now : Nat) (a : Agent) : Agent :=
  { (a.queue.foldl (Agent.processTask ex now) { a with queue := [] }) with queue := [] }

/-- `MultiAgentSystem._determine_best_agent`: keyword routing over the
lowercased `task.get('type','')`. -/
def MultiAgentSystem.determine_best_agent (task : TaskDict) : String :=
  let tt := strToLower task.type
  if strContains tt "code" || strContains tt "programming" then "coding"
  else if strContains tt "research" || strContains tt "information" then "research"
  else if strContains tt "finance" || strContains tt "stock" || strContains tt "investment" then "financial"
  else "research"

/-- `MultiAgentSystem.assign_task`: generate an id if absent, resolve
the agent (explicit id or keyword inference), and delegate; `none` when
the resolved agent id is not registered. Returns the mutated task dict,
the updated system and the optional task id. -/
def MultiAgentSystem.assign_task (sys : MultiAgentSystem) (task : TaskDict)
    (agent_id : Option String) (now : Nat) :
    TaskDict × MultiAgentSystem × Option String :=
  let gen := task.id.isNone
  let task := if gen then { task with id := some (genId sys.ctr) } else task
  let ctr := if gen then sys.ctr + 1 else sys.ctr
  let aid := agent_id.getD (MultiAgentSystem.determine_best_agent task)
  match alookup sys.agents aid with
  | none => (task, { sys with ctr := ctr }, none)
  | some ag =>
      let (task2, ag2, tid) := ag.assign_task task (genId ctr) now
      (task2,
       { sys with agents := aset sys.agents aid ag2,
                  task_assignments := aset sys.task_assignments tid aid,
                  ctr := ctr },
       some tid)

/-- `MultiAgentSystem.get_task_result`: follow the assignment map to
the owning agent's snapshot; unknown-task sentinel otherwise.  (When
the assignment points at a removed agent the source raises `KeyError`;
that state is unreachable in the runs modelled here, and the model
returns the unknown sentinel.) -/
def MultiAgentSystem.get_task_result (sys : MultiAgentSystem) (tid : String) : Snapshot :=
  match alookup sys.task_assignments tid with
  | none => { status := "unknown", error := some "Task not found" }
  | some aid =>
      match alookup sys.agents aid with
      | some a => a.get_result tid
      | none => { status := "unknown" }

/-- Combined result dict built by `_combine_results`. -/
structure CombinedResult where
  status : String
  error : Option String := none
  results : Option (List Value) := none
deriving DecidableEq

/-- `MultiAgentSystem._combine_results`: collect `result` payloads of
the snapshots whose status is `'completed'`; if none, report the
explicit failure, else wrap the collection. -/
def MultiAgentSystem.combine_results (subtask_results : List (String × Snapshot)) :
    CombinedResult :=
  let completed_results := subtask_results.filterMap
    (fun p => if p.2.status == "completed" then p.2.result else none)
  if completed_results.isEmpty then
    { status := "failed", error := some "No subtasks completed successfully" }
  else
    { status := "completed", results := some completed_results }

/-- Subtask-assignment loop of `collaborative_task` (lines 422-427):
assign each subtask through normal routing and collect the ids of the
assignments that succeeded; a subtask whose assignment returns `None`
contributes nothing. -/
def MultiAgentSystem.assignSubtasks (sys : MultiAgentSystem) (now : Nat) :
    List TaskDict → MultiAgentSystem × List String
  | [] => (sys, [])
  | s :: rest =>
      let r := MultiAgentSystem.assign_task sys s none now
      let (sys2, ids) := MultiAgentSystem.assignSubtasks r.2.1 now rest
      match r.2.2 with
      | some tid => (sys2, tid :: ids)
      | none => (sys2, ids)

/-- Return dict of `collaborative_task`. -/
structure CollabOutcome where
  main_task : TaskDict
  subtasks : List (String × Snapshot)
  combined_result : CombinedResult
  status : String
deriving DecidableEq

/-- `MultiAgentSystem.collaborative_task` with explicit subtasks: assign
them all, let the agents' worker threads run during the polling window
(the `work` parameter is the state transformation they perform before
the final poll; the identity models a window in which nothing ran,
`runQueue` on every agent models all executors finishing in time), then
evaluate the final poll: `all_completed` holds exactly when every
collected subtask id reads back a terminal (`'completed'` or
`'failed'`) snapshot, the per-subtask snapshots are collected, combined,
and the overall status is `'completed'` or `'partial'` accordingly. -/
def MultiAgentSystem.collaborative_task (work : MultiAgentSystem → MultiAgentSystem)
    (sys : MultiAgentSystem) (main_task : TaskDict) (subtasks : List TaskDict) (now : Nat) :
    CollabOutcome :=
  let ar := MultiAgentSystem.assignSubtasks sys now subtasks
  let sys2 := work ar.1
  let all_completed := ar.2.all (fun tid =>
    let s := (sys2.get_task_result tid).status
    s == "completed" || s == "failed")
  let subtask_results := ar.2.map (fun tid => (tid, sys2.get_task_result tid))
  { main_task := main_task,
    subtasks := subtask_results,
    combined_result := MultiAgentSystem.combine_results subtask_results,
    status := if all_completed then "completed" else "partial" }

/-- Observable operations on one base agent: a caller submits a task
or the worker loop picks up the queue head. -/
inductive AgentOp where
  | assign (t : TaskDict) (fresh : String) (now : Nat)
  | work (now : Nat)

/-- Apply one operation to a base agent. -/
def Agent.step (ex : TaskDict → Except String Value) (a : Agent) : AgentOp → Agent
  | AgentOp.assign t fresh now => (a.assign_task t fresh now).2.1
  | AgentOp.work now =>
      match a.queue with
      | [] => a
      | t :: rest => Agent.processTask ex now { a with queue := rest } t

/-- Run a sequence of operations from a given base-agent state. -/
def Agent.runOps (ex : TaskDict → Except String Value) (a : Agent) (ops : List AgentOp) : Agent :=
  ops.foldl (Agent.step ex) a

/-- Status/result/error discipline of a stored base snapshot: exactly
one of `result`/`error` on a terminal status, neither on a non-terminal
one. -/
def snapInv (s : Snapshot) : Prop :=
  (s.status = "completed" → s.result.isSome ∧ s.error = none) ∧
  (s.status = "failed" → s.error.isSome ∧ s.result = none) ∧
  ((s.status = "pending" ∨ s.status = "assigned" ∨ s.status = "processing") →
    s.result = none ∧ s.error = none)

end MA

namespace EMA

/-- Snapshot stored in `EnhancedAgent.results`: the dicts written by
`assign_task`, `_process_tasks` and `update_progress`. Each write in
the source replaces the whole dict, so absent keys are `none`. -/
structure Snapshot where
  status : String
  progress : Option Nat := none
  status_message : Option String := none
  result : Option Value := none
  error : Option String := none
  assigned_time : Option Nat := none
  start_time : Option Nat := none
  completion_time : Option Nat := none
deriving DecidableEq

/-- Enhanced agent state (`EnhancedAgent.__init__`). -/
structure EnhancedAgent where
  id : String
  name : String := ""
  type : String
  status : String := "initialized"
  progress : Nat := 0
  queue : List TaskDict := []
  results : List (String × Snapshot) := []
  running : Bool := false
deriving DecidableEq

/-- Enhanced executor behaviour (`_execute_task`): the progress updates
it reports through the `update_progress` callback during the run, and
its final outcome (`Except.error` models a raised exception). -/
abbrev Exec := TaskDict → List (Nat × Option String) × Except String Value

/-- `EnhancedAgent.assign_task`: write id, status `'assigned'`, the
assignment time and progress 0 into the caller's task dict, enqueue it,
and create the initial pending snapshot. -/
def EnhancedAgent.assign_task (a : EnhancedAgent) (task : TaskDict) (fresh : String) (now : Nat) :
    TaskDict × EnhancedAgent × String :=
  let tid := task.id.getD fresh
  let task := { task with id := some tid, status := some "assigned", assigned_time := some now, progress := some 0 }
  let snap : Snapshot := { status := "pending", progress := some 0, assigned_time := some now }
  (task, { a with queue := a.queue ++ [task], results := aset a.results tid snap }, tid)

/-- `EnhancedAgent.get_result`: snapshot for the id, or the unknown sentinel. -/
def EnhancedAgent.get_result (a : EnhancedAgent) (tid : String) : Snapshot :=
  (alookup a.results tid).getD { status := "unknown" }

/-- Per-agent status dict returned by `EnhancedAgent.get_status`. -/
structure AgentStatus where
  id : String
  name : String
  type : String
  status : String
  progress : Nat
  queue_size : Nat
  active_tasks : Nat
deriving DecidableEq

/-- `EnhancedAgent.get_status`: id, name, type, agent status and
progress, queue depth, and the count of snapshots whose status is
`'pending'` or `'processing'`. -/
def EnhancedAgent.get_status (a : EnhancedAgent) : AgentStatus :=
  { id := a.id, name := a.name, type := a.type, status := a.status, progress := a.progress,
    queue_size := a.queue.length,
    active_tasks := a.results.countP (fun p => p.2.status == "pending" || p.2.status == "processing") }

/-- `EnhancedAgent.update_progress`: if the id is known, set the
snapshot's progress in place and, when the message is truthy, its
status message; otherwise do nothing. -/
def EnhancedAgent.update_progress (a : EnhancedAgent) (tid : String) (p : Nat)
    (msg : Option String) : EnhancedAgent :=
  match alookup a.results tid with
  | none => a
  | some s =>
      let s := { s with progress := some p }
      let s := if optStrTruthy msg then { s with status_message := msg } else s
      { a with results := aset a.results tid s }

/-- One iteration of `EnhancedAgent._process_tasks` on a dequeued task:
replace the snapshot by the `'processing'` dict (progress 0, start
time), apply the executor's progress updates through `update_progress`,
then replace the snapshot by the terminal dict: on success
`'completed'` with the result and progress 100, on a raised error
`'failed'` with the error and completion time (this write carries no
progress key). -/
def EnhancedAgent.processTask (ex : Exec) (now : Nat) (a : EnhancedAgent)
    (task : TaskDict) : EnhancedAgent :=
  let tid := taskId task
  let snap0 : Snapshot := { status := "processing", progress := some 0, start_time := some now }
  let a := { a with results := aset a.results tid snap0 }
  let r := ex task
  let a := r.1.foldl (fun acc u => acc.update_progress tid u.1 u.2) a
  match r.2 with
  | Except.ok v =>
      let snap : Snapshot := { status := "completed", result := some v, progress := some 100,
                               completion_time := some now }
      { a with results := aset a.results tid snap }
  | Except.error e =>
      let snap : Snapshot := { status := "failed", error := some e, completion_time := some now }
      { a with results := aset a.results tid snap }

/-- Observable operations on one agent: a caller submits a task, the
worker loop picks up the queue head, or a holder of the progress
callback reports progress from outside a run. -/
inductive AgentOp where
  | assign (t : TaskDict) (fresh : String) (now : Nat)
  | work (now : Nat)
  | report (tid : String) (p : Nat) (msg : Option String)

/-- Apply one operation to an agent. -/
def EnhancedAgent.step (ex : Exec) (a : EnhancedAgent) : AgentOp → EnhancedAgent
  | AgentOp.assign t fresh now => (a.assign_task t fresh now).2.1
  | AgentOp.work now =>
      match a.queue with
      | [] => a
      | t :: rest => EnhancedAgent.processTask ex now { a with queue := rest } t
  | AgentOp.report tid p msg => a.update_progress tid p msg

/-- Run a sequence of operations from a given agent state. -/
def EnhancedAgent.run (ex : Exec) (a : EnhancedAgent) (ops : List AgentOp) : EnhancedAgent :=
  ops.foldl (EnhancedAgent.step ex) a

/-- A freshly constructed agent (`EnhancedAgent.__init__`). -/
def initAgent (id name ty : String) : EnhancedAgent :=
  { id := id, name := name, type := ty }

/-- Status/result/error discipline of a stored snapshot: exactly one of
`result`/`error` on a terminal status, neither on a non-terminal one. -/
def snapInv (s : Snapshot) : Prop :=
  (s.status = "completed" → s.result.isSome ∧ s.error = none) ∧
  (s.status = "failed" → s.error.isSome ∧ s.result = none) ∧
  ((s.status = "pending" ∨ s.status = "assigned" ∨ s.status = "processing") →
    s.result = none ∧ s.error = none)

/-- Lifecycle events of the worker loop, in the order the loop performs
them: `started` is the write of the `'processing'` snapshot for a
dequeued task, `finished` the write of its terminal snapshot (`ok` says
whether it completed rather than failed). -/
inductive Event where
  | started (tid : String)
  | finished (tid : String) (ok : Bool)
deriving DecidableEq

/-- Whether the executor finishes a given task without raising. -/
def execOk (ex : Exec) (t : TaskDict) : Bool :=
  match (ex t).2 with
  | Except.ok _ => true
  | Except.error _ => false

/-- Event sequence of `_process_tasks` over a fixed queue: the single
worker thread dequeues one task at a time (FIFO) and carries it to a
terminal state before touching the next one. -/
def workerTrace (ex : Exec) : List TaskDict → List Event
  | [] => []
  | t :: ts =>
      Event.started (taskId t) :: Event.finished (taskId t) (execOk ex t) :: workerTrace ex ts

/-- The enhanced orchestrator state (`MultiAgentSystem`): agents keyed
by `agent.id` in registration order, the task-to-agent assignment map,
and the fresh-id counter standing for `uuid.uuid4()`. -/
structure MultiAgentSystem where
  agents : List (String × EnhancedAgent)
  task_assignments : List (String × String) := []
  ctr : Nat := 0

/-- `MultiAgentSystem.get_agent_by_type`: first registered agent of the
given type. -/
def MultiAgentSystem.get_agent_by_type (sys : MultiAgentSystem) (ty : String) :
    Option EnhancedAgent :=
  (sys.agents.find? (fun p => p.2.type == ty)).map (fun p => p.2)

/-- Keyword inference of `assign_task` when no explicit hint is given:
general kinds first (`'financial'` token or a truthy symbol, then
coding, then research tokens); only when that resolved no agent, the
specialized financial kinds (`'technical'`, `'fundamental'`,
`'screen'`). -/
def MultiAgentSystem.keywordAgent (sys : MultiAgentSystem) (task : TaskDict) :
    Option EnhancedAgent :=
  let tt := task.task_type
  let agent :=
    if strContains tt "financial" || optStrTruthy task.symbol then
      sys.get_agent_by_type "financial"
    else if strContains tt "code" || strContains tt "programming" then
      sys.get_agent_by_type "coding"
    else if strContains tt "research" || strContains tt "information" then
      sys.get_agent_by_type "research"
    else none
  match agent with
  | some a => some a
  | none =>
      if strContains tt "technical" then sys.get_agent_by_type "technical_analysis"
      else if strContains tt "fundamental" then sys.get_agent_by_type "fundamental_analysis"
      else if strContains tt "screen" then sys.get_agent_by_type "stock_screener"
      else none

/-- Agent resolution of `assign_task` (lines 1041-1070): a truthy and
registered explicit agent id wins; else a truthy explicit type goes
through `get_agent_by_type`; else keyword inference; if no agent was
resolved, fall back to the first registered agent, if any. -/
def MultiAgentSystem.findAgentForTask (sys : MultiAgentSystem) (task : TaskDict)
    (agent_type agent_id : Option String) : Option EnhancedAgent :=
  let agent :=
    if optStrTruthy agent_id && (alookup sys.agents (agent_id.getD "")).isSome then
      alookup sys.agents (agent_id.getD "")
    else if optStrTruthy agent_type then
      sys.get_agent_by_type (agent_type.getD "")
    else
      sys.keywordAgent task
  match agent with
  | some a => some a
  | none => (sys.agents.head?).map (fun p => p.2)

/-- Replace the registered entry of a (mutated) agent, identified by
its immutable id, by its new state. -/
def MultiAgentSystem.updAgent (l : List (String × EnhancedAgent)) (a : EnhancedAgent) :
    List (String × EnhancedAgent) :=
  l.map (fun p => if p.2.id == a.id then (p.1, a) else p)

/-- `MultiAgentSystem.assign_task`: write a generated id into the
caller's task dict when absent, resolve an agent, and delegate to the
agent's `assign_task`, recording the assignment; when no agent at all
is available, return `none` (the "no agents available" error) with the
task dict carrying only the new id. -/
def MultiAgentSystem.assign_task (sys : MultiAgentSystem) (task : TaskDict)
    (agent_type agent_id : Option String) (now : Nat) :
    TaskDict × MultiAgentSystem × Option String :=
  let gen := task.id.isNone
  let task := if gen then { task with id := some (genId sys.ctr) } else task
  let ctr := if gen then sys.ctr + 1 else sys.ctr
  let sys := { sys with ctr := ctr }
  match sys.findAgentForTask task agent_type agent_id with
  | none => (task, sys, none)
  | some ag =>
      let r := ag.assign_task task (genId sys.ctr) now
      (r.1,
       { sys with agents := MultiAgentSystem.updAgent sys.agents r.2.1,
                  task_assignments := aset sys.task_assignments r.2.2 ag.id },
       some r.2.2)

/-- System status dict returned by `get_system_status`. -/
structure SystemStatus where
  agent_count : Nat
  agents : List AgentStatus
  active_tasks : Nat
deriving DecidableEq

/-- `MultiAgentSystem.get_system_status`: agent count, each agent's
`get_status()`, and `len(self.task_assignments)` as `active_tasks`. -/
def MultiAgentSystem.get_system_status (sys : MultiAgentSystem) : SystemStatus :=
  { agent_count := sys.agents.length,
    agents := sys.agents.map (fun p => p.2.get_status),
    active_tasks := sys.task_assignments.length }

/-- Modelled from the spec: "the number of tasks across all agents
whose status is non-terminal" — counts, over every registered agent's
results map, the snapshots whose status is neither `'completed'` nor
`'failed'`. Stated for comparison with `get_system_status`. -/
def specNonTerminalCount (sys : MultiAgentSystem) : Nat :=
  (sys.agents.map (fun p =>
    p.2.results.countP (fun q => !(q.2.status == "completed" || q.2.status == "failed")))).sum

/-- Number of terminal snapshots across all agents. -/
def terminalCount (sys : MultiAgentSystem) : Nat :=
  (sys.agents.map (fun p =>
    p.2.results.countP (fun q => q.2.status == "completed" || q.2.status == "failed"))).sum

end EMA

/-- All agents' worker threads drain their queues during the polling
window: each registered agent processes every queued task with its own
executor (`execOf` maps the registry key to the agent's
`_execute_task`). -/
def MA.runAllAgents (execOf : String → TaskDict → Except String Value) (now : Nat)
    (sys : MA.MultiAgentSystem) : MA.MultiAgentSystem :=
  { sys with agents := sys.agents.map (fun p => (p.1, MA.Agent.runQueue (execOf p.1) now p.2)) }

/-- Ids collected by the subtask-assignment loop of `collaborative_task`. -/
def MA.assignedIds (sys : MA.MultiAgentSystem) (now : Nat) (subtasks : List TaskDict) :
    List String :=
  (MA.MultiAgentSystem.assignSubtasks sys now subtasks).2

/-- System state at the final poll of `collaborative_task`: subtasks
assigned, then the agents ran for the polling window. -/
def MA.postWork (work : MA.MultiAgentSystem → MA.MultiAgentSystem)
    (sys : MA.MultiAgentSystem) (now : Nat) (subtasks : List TaskDict) :
    MA.MultiAgentSystem :=
  work (MA.MultiAgentSystem.assignSubtasks sys now subtasks).1

/-- Executors of the two-agent example registry: the coding agent's
executor always raises, every other executor succeeds. -/
def exExecOf (aid : String) : TaskDict → Except String Value :=
  fun _ => if aid = "coding" then Except.error "boom" else Except.ok "done"

/-- Executors that always raise. -/
def failExecOf (_ : String) : TaskDict → Except String Value :=
  fun _ => Except.error "err"

/-- Example registry with a research and a coding agent. -/
def exSys : MA.MultiAgentSystem := { agents := [("research", {}), ("coding", {})] }

/-- Example registry with only a research agent (the coding agent was
removed), so code-typed tasks cannot be assigned. -/
def sysNC : MA.MultiAgentSystem := { agents := [("research", {})] }

/-- Example main task of a collaborative run. -/
def exMain : TaskDict := { type := "main job", description := "d" }

/-- Research-typed subtask (routes to the research agent). -/
def subResearch : TaskDict := { type := "research topic", query := "x" }

/-- Code-typed subtask (routes to the coding agent). -/
def subCoding : TaskDict := { type := "code thing" }

/-- Code-typed subtask carrying its own id. -/
def subCodingWithId : TaskDict := { type := "code thing", id := some "sub-1" }

/-- Collaborative run in which both subtasks are assigned and finish
before the deadline, the coding subtask by raising. -/
def c1out : MA.CollabOutcome :=
  MA.MultiAgentSystem.collaborative_task (MA.runAllAgents exExecOf 9) exSys exMain
    [subResearch, subCoding] 5

/-- Collaborative run in which the code-typed subtask cannot be
assigned (no coding agent registered). -/
def c3out : MA.CollabOutcome :=
  MA.MultiAgentSystem.collaborative_task (MA.runAllAgents exExecOf 9) sysNC exMain
    [subCodingWithId, subResearch] 5

/-- Collaborative run in which every executor raises, so no subtask
completes. -/
def c9out : MA.CollabOutcome :=
  MA.MultiAgentSystem.collaborative_task (MA.runAllAgents failExecOf 9) exSys exMain
    [subResearch] 5

/-- Executor that reports 50% progress and then raises. -/
def c4exec : EMA.Exec := fun _ => ([(50, some "halfway")], Except.error "boom")

/-- A single enhanced agent. -/
def c4agent : EMA.EnhancedAgent := { id := "a1", type := "research" }

/-- A task already carrying its id, as every queued task does. -/
def c4task : TaskDict := { id := some "t1" }

/-- Terminal snapshot of a completed example task. -/
def c2snap : EMA.Snapshot :=
  { status := "completed", result := some "done", progress := some 100, completion_time := some 4 }

/-- Agent holding one completed (terminal) task snapshot. -/
def c2agent : EMA.EnhancedAgent := { id := "a1", type := "research", results := [("t1", c2snap)] }

/-- System with one agent and one recorded assignment whose task is
already terminal. -/
def c2sys : EMA.MultiAgentSystem :=
  { agents := [("a1", c2agent)], task_assignments := [("t1", "a1")] }

/-- Registry holding a general financial agent and all three
specialized financial agents. -/
def c5sys : EMA.MultiAgentSystem :=
  { agents := [("af", { id := "af", type := "financial" }),
               ("at", { id := "at", type := "technical_analysis" }),
               ("au", { id := "au", type := "fundamental_analysis" }),
               ("as", { id := "as", type := "stock_screener" })] }

/-- Task whose type string contains both the `'technical'` token and
the `'financial'` token. -/
def c5task : TaskDict := { task_type := "technical financial analysis" }

/-- Task whose type string contains only the `'technical'` token. -/
def c5taskPure : TaskDict := { task_type := "technical outlook" }

/-- Enhanced registry with no agents at all. -/
def emptySys : EMA.MultiAgentSystem := { agents := [] }

/-- Enhanced registry with a single research agent. -/
def c10sys : EMA.MultiAgentSystem := { agents := [("ar", { id := "ar", type := "research" })] }

/-- Two tasks carrying their ids, for a FIFO queue example. -/
def taskA : TaskDict := { id := some "A" }

/-- Second task of the FIFO queue example. -/
def taskB : TaskDict := { id := some "B" }

theorem alookup_aset_self {β : Type} (l : List (String × β)) (k : String) (v : β) :
    alookup (aset l k v) k = some v := by
  induction l with
  | nil => simp [aset, alookup]
  | cons hd tl ih =>
    obtain ⟨k', v'⟩ := hd
    by_cases h : k' = k <;> simp [aset, alookup, h, ih]

theorem mem_aset {β : Type} {l : List (String × β)} {k : String} {v : β} {p : String × β}
    (h : p ∈ aset l k v) : p ∈ l ∨ p = (k, v) := by
  induction l with
  | nil => simp [aset] at h; simp [h]
  | cons hd tl ih =>
    obtain ⟨k', v'⟩ := hd
    by_cases hk : k' = k
    · simp [aset, hk] at h
      rcases h with h | h
      · right; simp [h]
      · left; simp [h]
    · simp [aset, hk] at h
      rcases h with h | h
      · left; simp [h]
      · rcases ih h with h' | h'
        · left; simp [h']
        · right; exact h'

theorem alookup_mem {β : Type} {l : List (String × β)} {k : String} {v : β}
    (h : alookup l k = some v) : (k, v) ∈ l := by
  induction l with
  | nil => simp [alookup] at h
  | cons hd tl ih =>
    obtain ⟨k', v'⟩ := hd
    by_cases hk : k' = k
    · subst hk
      simp [alookup] at h
      simp [h]
    · simp [alookup, hk] at h
      simp [ih h]

/-- C8: with no agent registered at all, `assign_task` of the enhanced
orchestrator resolves no agent, returns `none` in place of a task id,
and records no assignment. -/
theorem C8_assign_no_agents (sys : EMA.MultiAgentSystem) (task : TaskDict)
    (agent_type agent_id : Option String) (now : Nat) (h : sys.agents = []) :
    (EMA.MultiAgentSystem.assign_task sys task agent_type agent_id now).2.2 = none ∧
    (EMA.MultiAgentSystem.assign_task sys task agent_type agent_id now).2.1.task_assignments
      = sys.task_assignments := by
  obtain ⟨ags, ta, c⟩ := sys
  simp only at h
  subst h
  simp [EMA.MultiAgentSystem.assign_task, EMA.MultiAgentSystem.findAgentForTask,
    EMA.MultiAgentSystem.keywordAgent, EMA.MultiAgentSystem.get_agent_by_type, alookup]

theorem C8_assign_no_agents_witness :
    (EMA.MultiAgentSystem.assign_task emptySys { query := "q" } none none 3).2.2 = none ∧
    (EMA.MultiAgentSystem.assign_task emptySys { query := "q" } none none 3).2.1.task_assignments
      = emptySys.task_assignments :=
  C8_assign_no_agents emptySys { query := "q" } none none 3 rfl

/-- C10: `assign_task` of the enhanced orchestrator mutates the
caller's task dict: a task submitted without an id gains the generated
id even when routing fails and `none` is returned (and nothing else is
written in that case), and on successful assignment the resolved
agent's `assign_task` additionally writes status `'assigned'`, the
assignment time and progress 0 into the same dict. -/
theorem C10_assign_mutates_task (sys : EMA.MultiAgentSystem) (task : TaskDict)
    (agent_type agent_id : Option String) (now : Nat) (h : task.id = none) :
    (EMA.MultiAgentSystem.assign_task sys task agent_type agent_id now).1.id
      = some (genId sys.ctr) ∧
    ((EMA.MultiAgentSystem.assign_task sys task agent_type agent_id now).2.2 = none →
      (EMA.MultiAgentSystem.assign_task sys task agent_type agent_id now).1
        = { task with id := some (genId sys.ctr) }) ∧
    (∀ tid, (EMA.MultiAgentSystem.assign_task sys task agent_type agent_id now).2.2 = some tid →
      (EMA.MultiAgentSystem.assign_task sys task agent_type agent_id now).1
        = { task with id := some tid, status := some "assigned", assigned_time := some now, progress := some 0 }) := by
  cases hF : EMA.MultiAgentSystem.findAgentForTask
      { sys with ctr := sys.ctr + 1 } { task with id := some (genId sys.ctr) } agent_type agent_id with
  | none =>
    simp [EMA.MultiAgentSystem.assign_task, h, Option.isNone, hF]
  | some ag =>
    simp [EMA.MultiAgentSystem.assign_task, h, Option.isNone, hF,
      EMA.EnhancedAgent.assign_task, Option.getD]

theorem C10_assign_mutates_task_witness :
    (EMA.MultiAgentSystem.assign_task c10sys {} none none 4).1.id = some (genId c10sys.ctr) ∧
    ((EMA.MultiAgentSystem.assign_task c10sys {} none none 4).2.2 = none →
      (EMA.MultiAgentSystem.assign_task c10sys {} none none 4).1
        = { TaskDict.mk none "" "" none none none none "" "" with id := some (genId c10sys.ctr) }) ∧
    (∀ tid, (EMA.MultiAgentSystem.assign_task c10sys {} none none 4).2.2 = some tid →
      (EMA.MultiAgentSystem.assign_task c10sys {} none none 4).1
        = { TaskDict.mk none "" "" none none none none "" "" with id := some tid, status := some "assigned", assigned_time := some 4, progress := some 0 }) :=
  C10_assign_mutates_task c10sys {} none none 4 rfl

theorem combine_results_no_completed (l : List (String × MA.Snapshot))
    (h : ∀ p ∈ l, p.2.status ≠ "completed") :
    MA.MultiAgentSystem.combine_results l
      = { status := "failed", error := some "No subtasks completed successfully" } := by
  have hfm : l.filterMap (fun p => if p.2.status == "completed" then p.2.result else none) = [] := by
    rw [List.filterMap_eq_nil_iff]
    intro p hp
    have hne := h p hp
    simp [hne]
  simp only [MA.MultiAgentSystem.combine_results, hfm]
  rfl

/-- C9: a collaborative run in which no subtask snapshot is
`'completed'` yields the explicit combined failure
`{'status': 'failed', 'error': 'No subtasks completed successfully'}`
rather than an empty success. -/
theorem C9_zero_completed_combined_failure (work : MA.MultiAgentSystem → MA.MultiAgentSystem)
    (sys : MA.MultiAgentSystem) (main : TaskDict) (subs : List TaskDict) (now : Nat)
    (h : ∀ p ∈ (MA.MultiAgentSystem.collaborative_task work sys main subs now).subtasks,
      p.2.status ≠ "completed") :
    (MA.MultiAgentSystem.collaborative_task work sys main subs now).combined_result
      = { status := "failed", error := some "No subtasks completed successfully" } := by
  have hsub : (MA.MultiAgentSystem.collaborative_task work sys main subs now).combined_result
      = MA.MultiAgentSystem.combine_results
          (MA.MultiAgentSystem.collaborative_task work sys main subs now).subtasks := by
    simp [MA.MultiAgentSystem.collaborative_task]
  rw [hsub]
  exact combine_results_no_completed _ h

theorem C9_zero_completed_combined_failure_witness :
    (∀ p ∈ c9out.subtasks, p.2.status ≠ "completed") ∧
    c9out.combined_result
      = { status := "failed", error := some "No subtasks completed successfully" } :=
  ⟨by decide, C9_zero_completed_combined_failure (MA.runAllAgents failExecOf 9) exSys exMain
    [subResearch] 5 (by decide)⟩

theorem countP_split {α : Type} (p : α → Bool) (l : List α) :
    l.countP p + l.countP (fun a => !(p a)) = l.length := by
  induction l with
  | nil => rfl
  | cons hd tl ih =>
    by_cases h : p hd = true
    · simp [List.countP_cons, h]
      omega
    · simp [List.countP_cons, h]
      omega

theorem lengthSum_split (l : List (String × EMA.EnhancedAgent)) :
    (l.map (fun p => p.2.results.length)).sum
      = (l.map (fun p => p.2.results.countP
          (fun q => !(q.2.status == "completed" || q.2.status == "failed")))).sum
        + (l.map (fun p => p.2.results.countP
            (fun q => q.2.status == "completed" || q.2.status == "failed"))).sum := by
  induction l with
  | nil => rfl
  | cons hd tl ih =>
    simp only [List.map_cons, List.sum_cons]
    have hl := countP_split
      (fun q : String × EMA.Snapshot => q.2.status == "completed" || q.2.status == "failed")
      hd.2.results
    omega

/-- C2 counterexample: a system holding one recorded assignment whose
task is already terminal reports `active_tasks = 1` while the number of
non-terminal tasks across all agents is 0, so `get_system_status` does
not return the non-terminal count. -/
theorem C2_cex :
    (EMA.MultiAgentSystem.get_system_status c2sys).active_tasks = 1 ∧
    EMA.specNonTerminalCount c2sys = 0 ∧
    (EMA.MultiAgentSystem.get_system_status c2sys).active_tasks
      ≠ EMA.specNonTerminalCount c2sys := by
  refine ⟨rfl, rfl, ?_⟩
  decide

/-- C2 (amended): `get_system_status` returns the number of registered
agents, the `get_status()` of every registered agent, and as
`active_tasks` the total number of recorded task assignments; given
that every assigned task has exactly one snapshot, that total is the
number of non-terminal tasks plus the number of terminal tasks, not
the non-terminal count alone. -/
theorem C2_system_status_counts_assignments (sys : EMA.MultiAgentSystem)
    (h : (sys.agents.map (fun p => p.2.results.length)).sum = sys.task_assignments.length) :
    (EMA.MultiAgentSystem.get_system_status sys).agent_count = sys.agents.length ∧
    (EMA.MultiAgentSystem.get_system_status sys).agents
      = sys.agents.map (fun p => p.2.get_status) ∧
    (EMA.MultiAgentSystem.get_system_status sys).active_tasks
      = EMA.specNonTerminalCount sys + EMA.terminalCount sys := by
  refine ⟨rfl, rfl, ?_⟩
  have hs : (EMA.MultiAgentSystem.get_system_status sys).active_tasks
      = sys.task_assignments.length := rfl
  rw [hs, ← h, lengthSum_split]
  rfl

theorem C2_system_status_counts_assignments_witness :
    (c2sys.agents.map (fun p => p.2.results.length)).sum = c2sys.task_assignments.length ∧
    ((EMA.MultiAgentSystem.get_system_status c2sys).agent_count = c2sys.agents.length ∧
     (EMA.MultiAgentSystem.get_system_status c2sys).agents
       = c2sys.agents.map (fun p => p.2.get_status) ∧
     (EMA.MultiAgentSystem.get_system_status c2sys).active_tasks
       = EMA.specNonTerminalCount c2sys + EMA.terminalCount c2sys) :=
  ⟨rfl, C2_system_status_counts_assignments c2sys rfl⟩

/-- C4 counterexample: an executor reports progress 50 and then raises;
the worker loop replaces the whole snapshot dict on failure, so the
failed snapshot carries no progress key at all — the progress is not
left at its last reported value of 50. -/
theorem C4_cex :
    (c4exec c4task).1 = [(50, some "halfway")] ∧
    alookup (EMA.EnhancedAgent.processTask c4exec 3 c4agent c4task).results "t1"
      = some { status := "failed", error := some "boom", completion_time := some 3 } ∧
    (alookup (EMA.EnhancedAgent.processTask c4exec 3 c4agent c4task).results "t1").map
        EMA.Snapshot.progress ≠ some (some 50) := by
  refine ⟨rfl, by decide, by decide⟩

/-- C4 (amended): when the executor raises, the worker loop stores on
the task's snapshot the error payload, status `'failed'` and the
completion time; the write replaces the whole snapshot dict, so the
failed snapshot carries no progress field (it is neither forced to 100
nor kept at its last reported value). -/
theorem C4_failed_snapshot (ex : EMA.Exec) (a : EMA.EnhancedAgent) (t : TaskDict)
    (now : Nat) (upds : List (Nat × Option String)) (e : String)
    (hex : ex t = (upds, Except.error e)) :
    alookup (EMA.EnhancedAgent.processTask ex now a t).results (taskId t)
      = some { status := "failed", error := some e, completion_time := some now } := by
  simp [EMA.EnhancedAgent.processTask, hex, alookup_aset_self]

theorem C4_failed_snapshot_witness :
    c4exec c4task = ([(50, some "halfway")], Except.error "boom") ∧
    alookup (EMA.EnhancedAgent.processTask c4exec 7 c4agent c4task).results (taskId c4task)
      = some { status := "failed", error := some "boom", completion_time := some 7 } :=
  ⟨rfl, C4_failed_snapshot c4exec c4agent c4task 7 [(50, some "halfway")] "boom" rfl⟩

theorem get_agent_by_type_spec (sys : EMA.MultiAgentSystem) (ty : String)
    (h : (EMA.MultiAgentSystem.get_agent_by_type sys ty).isSome = true) :
    (EMA.MultiAgentSystem.get_agent_by_type sys ty).map EMA.EnhancedAgent.type = some ty := by
  unfold EMA.MultiAgentSystem.get_agent_by_type at h ⊢
  cases hf : sys.agents.find? (fun p => p.2.type == ty) with
  | none => rw [hf] at h; simp at h
  | some pr =>
    have hp := List.find?_some hf
    have hty : pr.2.type = ty := eq_of_beq hp
    exact congrArg some hty

/-- C5 counterexample: with the general financial agent and all three
specialized agents registered, a hint-less task whose type string
contains the `'technical'` token (here also the `'financial'` token) is
routed to the general financial kind, not to `technical_analysis`:
the general-kind checks run first. -/
theorem C5_cex :
    (EMA.MultiAgentSystem.findAgentForTask c5sys c5task none none).map EMA.EnhancedAgent.type
      = some "financial" ∧
    strContains c5task.task_type "technical" = true ∧
    some ("financial" : String) ≠ some ("technical_analysis" : String) := by
  refine ⟨by decide, by decide, by decide⟩

/-- C5 (amended): a hint-less task whose type string contains
`'technical'`, `'fundamental'` or `'screen'` is routed to the
corresponding specialized kind only when the general-kind inference
resolved no agent: here, when the type string contains none of the
general tokens (`'financial'`, `'code'`, `'programming'`,
`'research'`, `'information'`) and the task carries no symbol; the
specialized tokens are tried in the order technical, fundamental,
screen, before the first-registered-agent fallback. -/
theorem C5_specialized_routing (sys : EMA.MultiAgentSystem) (task : TaskDict)
    (hfin : strContains task.task_type "financial" = false)
    (hsym : optStrTruthy task.symbol = false)
    (hcode : strContains task.task_type "code" = false)
    (hprog : strContains task.task_type "programming" = false)
    (hres : strContains task.task_type "research" = false)
    (hinfo : strContains task.task_type "information" = false) :
    (strContains task.task_type "technical" = true →
      (EMA.MultiAgentSystem.get_agent_by_type sys "technical_analysis").isSome = true →
      (EMA.MultiAgentSystem.findAgentForTask sys task none none).map EMA.EnhancedAgent.type
        = some "technical_analysis") ∧
    (strContains task.task_type "technical" = false →
      strContains task.task_type "fundamental" = true →
      (EMA.MultiAgentSystem.get_agent_by_type sys "fundamental_analysis").isSome = true →
      (EMA.MultiAgentSystem.findAgentForTask sys task none none).map EMA.EnhancedAgent.type
        = some "fundamental_analysis") ∧
    (strContains task.task_type "technical" = false →
      strContains task.task_type "fundamental" = false →
      strContains task.task_type "screen" = true →
      (EMA.MultiAgentSystem.get_agent_by_type sys "stock_screener").isSome = true →
      (EMA.MultiAgentSystem.findAgentForTask sys task none none).map EMA.EnhancedAgent.type
        = some "stock_screener") := by
  refine ⟨?_, ?_, ?_⟩
  · intro ht hsome
    have hk : EMA.MultiAgentSystem.keywordAgent sys task
        = EMA.MultiAgentSystem.get_agent_by_type sys "technical_analysis" := by
      simp [EMA.MultiAgentSystem.keywordAgent, hfin, hsym, hcode, hprog, hres, hinfo, ht]
    obtain ⟨a, ha⟩ := Option.isSome_iff_exists.mp hsome
    have hf : EMA.MultiAgentSystem.findAgentForTask sys task none none
        = EMA.MultiAgentSystem.get_agent_by_type sys "technical_analysis" := by
      simp [EMA.MultiAgentSystem.findAgentForTask, optStrTruthy, hk, ha]
    rw [hf]
    exact get_agent_by_type_spec sys _ hsome
  · intro ht hfund hsome
    have hk : EMA.MultiAgentSystem.keywordAgent sys task
        = EMA.MultiAgentSystem.get_agent_by_type sys "fundamental_analysis" := by
      simp [EMA.MultiAgentSystem.keywordAgent, hfin, hsym, hcode, hprog, hres, hinfo, ht, hfund]
    obtain ⟨a, ha⟩ := Option.isSome_iff_exists.mp hsome
    have hf : EMA.MultiAgentSystem.findAgentForTask sys task none none
        = EMA.MultiAgentSystem.get_agent_by_type sys "fundamental_analysis" := by
      simp [EMA.MultiAgentSystem.findAgentForTask, optStrTruthy, hk, ha]
    rw [hf]
    exact get_agent_by_type_spec sys _ hsome
  · intro ht hfund hscr hsome
    have hk : EMA.MultiAgentSystem.keywordAgent sys task
        = EMA.MultiAgentSystem.get_agent_by_type sys "stock_screener" := by
      simp [EMA.MultiAgentSystem.keywordAgent, hfin, hsym, hcode, hprog, hres, hinfo, ht, hfund,
        hscr]
    obtain ⟨a, ha⟩ := Option.isSome_iff_exists.mp hsome
    have hf : EMA.MultiAgentSystem.findAgentForTask sys task none none
        = EMA.MultiAgentSystem.get_agent_by_type sys "stock_screener" := by
      simp [EMA.MultiAgentSystem.findAgentForTask, optStrTruthy, hk, ha]
    rw [hf]
    exact get_agent_by_type_spec sys _ hsome

theorem C5_specialized_routing_witness :
    strContains c5taskPure.task_type "technical" = true ∧
    strContains c5taskPure.task_type "financial" = false ∧
    (EMA.MultiAgentSystem.get_agent_by_type c5sys "technical_analysis").isSome = true ∧
    (EMA.MultiAgentSystem.findAgentForTask c5sys c5taskPure none none).map
        EMA.EnhancedAgent.type = some "technical_analysis" :=
  ⟨by decide, by decide, by decide,
    (C5_specialized_routing c5sys c5taskPure (by decide) (by decide) (by decide) (by decide)
      (by decide) (by decide)).1 (by decide) (by decide)⟩

theorem snapInv_pending (now : Nat) :
    EMA.snapInv { status := "pending", progress := some 0, assigned_time := some now } := by
  refine ⟨fun h => ?_, fun h => ?_, fun _ => ⟨rfl, rfl⟩⟩ <;> simp at h

theorem snapInv_processing (now : Nat) :
    EMA.snapInv { status := "processing", progress := some 0, start_time := some now } := by
  refine ⟨fun h => ?_, fun h => ?_, fun _ => ⟨rfl, rfl⟩⟩ <;> simp at h

theorem snapInv_completed (v : Value) (now : Nat) :
    EMA.snapInv { status := "completed", result := some v, progress := some 100,
                  completion_time := some now } := by
  refine ⟨fun _ => ⟨rfl, rfl⟩, fun h => ?_, fun h => ?_⟩ <;> simp at h

theorem snapInv_failed (e : String) (now : Nat) :
    EMA.snapInv { status := "failed", error := some e, completion_time := some now } := by
  refine ⟨fun h => ?_, fun _ => ⟨rfl, rfl⟩, fun h => ?_⟩ <;> simp at h

theorem resultsInv_update_progress (a : EMA.EnhancedAgent) (tid : String) (pr : Nat)
    (msg : Option String) (h : ∀ q ∈ a.results, EMA.snapInv q.2) :
    ∀ q ∈ (EMA.EnhancedAgent.update_progress a tid pr msg).results, EMA.snapInv q.2 := by
  intro q hq
  simp only [EMA.EnhancedAgent.update_progress] at hq
  cases hl : alookup a.results tid with
  | none => rw [hl] at hq; exact h q hq
  | some s =>
    rw [hl] at hq
    simp only at hq
    rcases mem_aset hq with hm | he
    · exact h q hm
    · have hs : EMA.snapInv s := h (tid, s) (alookup_mem hl)
      rw [he]
      by_cases hm' : optStrTruthy msg = true <;> simp only [hm', if_true, if_false] <;> exact hs

theorem resultsInv_updFold (tid : String) (upds : List (Nat × Option String))
    (a : EMA.EnhancedAgent) (h : ∀ q ∈ a.results, EMA.snapInv q.2) :
    ∀ q ∈ (upds.foldl (fun acc u => EMA.EnhancedAgent.update_progress acc tid u.1 u.2) a).results,
      EMA.snapInv q.2 := by
  induction upds generalizing a with
  | nil => exact h
  | cons u us ih => exact ih _ (resultsInv_update_progress a tid u.1 u.2 h)

theorem resultsInv_processTask (ex : EMA.Exec) (now : Nat) (a : EMA.EnhancedAgent) (t : TaskDict)
    (h : ∀ q ∈ a.results, EMA.snapInv q.2) :
    ∀ q ∈ (EMA.EnhancedAgent.processTask ex now a t).results, EMA.snapInv q.2 := by
  intro q hq
  simp only [EMA.EnhancedAgent.processTask] at hq
  have hbase : ∀ q' ∈ aset a.results (taskId t)
      { status := "processing", progress := some 0, start_time := some now,
        status_message := none, result := none, error := none, assigned_time := none,
        completion_time := none }, EMA.snapInv q'.2 := by
    intro q' hq'
    rcases mem_aset hq' with hm' | he'
    · exact h q' hm'
    · rw [he']; exact snapInv_processing now
  split at hq
  · rcases mem_aset hq with hm | he
    · exact resultsInv_updFold (taskId t) (ex t).1 _ hbase q hm
    · rw [he]; exact snapInv_completed _ now
  · rcases mem_aset hq with hm | he
    · exact resultsInv_updFold (taskId t) (ex t).1 _ hbase q hm
    · rw [he]; exact snapInv_failed _ now

theorem resultsInv_assign (a : EMA.EnhancedAgent) (t : TaskDict) (fresh : String) (now : Nat)
    (h : ∀ q ∈ a.results, EMA.snapInv q.2) :
    ∀ q ∈ ((a.assign_task t fresh now).2.1).results, EMA.snapInv q.2 := by
  intro q hq
  simp only [EMA.EnhancedAgent.assign_task] at hq
  rcases mem_aset hq with hm | he
  · exact h q hm
  · rw [he]; exact snapInv_pending now

theorem resultsInv_step (ex : EMA.Exec) (a : EMA.EnhancedAgent) (op : EMA.AgentOp)
    (h : ∀ q ∈ a.results, EMA.snapInv q.2) :
    ∀ q ∈ (EMA.EnhancedAgent.step ex a op).results, EMA.snapInv q.2 := by
  cases op with
  | assign t fresh now => exact resultsInv_assign a t fresh now h
  | work now =>
    cases hq : a.queue with
    | nil => simp only [EMA.EnhancedAgent.step, hq]; exact h
    | cons t rest =>
      simp only [EMA.EnhancedAgent.step, hq]
      exact resultsInv_processTask ex now { a with queue := rest } t h
  | report tid pr msg => exact resultsInv_update_progress a tid pr msg h

theorem resultsInv_run (ex : EMA.Exec) (ops : List EMA.AgentOp) (a : EMA.EnhancedAgent)
    (h : ∀ q ∈ a.results, EMA.snapInv q.2) :
    ∀ q ∈ (EMA.EnhancedAgent.run ex a ops).results, EMA.snapInv q.2 := by
  induction ops generalizing a with
  | nil => exact h
  | cons op ops ih => exact ih _ (resultsInv_step ex a op h)

theorem ma_snapInv_pending : MA.snapInv { status := "pending" } := by
  refine ⟨fun h => ?_, fun h => ?_, fun _ => ⟨rfl, rfl⟩⟩ <;> simp at h

theorem ma_snapInv_processing : MA.snapInv { status := "processing" } := by
  refine ⟨fun h => ?_, fun h => ?_, fun _ => ⟨rfl, rfl⟩⟩ <;> simp at h

theorem ma_snapInv_completed (v : Value) (now : Nat) :
    MA.snapInv { status := "completed", result := some v, completion_time := some now } := by
  refine ⟨fun _ => ⟨rfl, rfl⟩, fun h => ?_, fun h => ?_⟩ <;> simp at h

theorem ma_snapInv_failed (e : String) (now : Nat) :
    MA.snapInv { status := "failed", error := some e, completion_time := some now } := by
  refine ⟨fun h => ?_, fun _ => ⟨rfl, rfl⟩, fun h => ?_⟩ <;> simp at h

theorem ma_resultsInv_processTask (ex : TaskDict → Except String Value) (now : Nat)
    (a : MA.Agent) (t : TaskDict) (h : ∀ q ∈ a.results, MA.snapInv q.2) :
    ∀ q ∈ (MA.Agent.processTask ex now a t).results, MA.snapInv q.2 := by
  intro q hq
  simp only [MA.Agent.processTask] at hq
  split at hq
  · rcases mem_aset hq with hm | he
    · rcases mem_aset hm with hm2 | he2
      · exact h q hm2
      · rw [he2]; exact ma_snapInv_processing
    · rw [he]; exact ma_snapInv_completed _ now
  · rcases mem_aset hq with hm | he
    · rcases mem_aset hm with hm2 | he2
      · exact h q hm2
      · rw [he2]; exact ma_snapInv_processing
    · rw [he]; exact ma_snapInv_failed _ now

theorem ma_resultsInv_step (ex : TaskDict → Except String Value) (a : MA.Agent)
    (op : MA.AgentOp) (h : ∀ q ∈ a.results, MA.snapInv q.2) :
    ∀ q ∈ (MA.Agent.step ex a op).results, MA.snapInv q.2 := by
  cases op with
  | assign t fresh now =>
    intro q hq
    simp only [MA.Agent.step, MA.Agent.assign_task] at hq
    rcases mem_aset hq with hm | he
    · exact h q hm
    · rw [he]; exact ma_snapInv_pending
  | work now =>
    cases hq : a.queue with
    | nil => simp only [MA.Agent.step, hq]; exact h
    | cons t rest =>
      simp only [MA.Agent.step, hq]
      exact ma_resultsInv_processTask ex now { a with queue := rest } t h

theorem ma_resultsInv_runOps (ex : TaskDict → Except String Value) (ops : List MA.AgentOp)
    (a : MA.Agent) (h : ∀ q ∈ a.results, MA.snapInv q.2) :
    ∀ q ∈ (MA.Agent.runOps ex a ops).results, MA.snapInv q.2 := by
  induction ops generalizing a with
  | nil => exact h
  | cons op ops ih => exact ih _ (ma_resultsInv_step ex a op h)

/-- C7: in both agent implementations, every snapshot held by an agent
that started empty and then underwent any sequence of submissions,
worker-loop iterations and (for the enhanced agent) progress reports
satisfies the exclusivity discipline: on status `'completed'` the
result is set and the error absent, on `'failed'` the error is set and
the result absent, and on a non-terminal status (`'pending'`,
`'assigned'`, `'processing'`) neither is set. -/
theorem C7_snapshot_exclusivity :
    (∀ (ex : EMA.Exec) (ops : List EMA.AgentOp) (aid nm ty : String)
        (p : String × EMA.Snapshot),
      p ∈ (EMA.EnhancedAgent.run ex (EMA.initAgent aid nm ty) ops).results →
      EMA.snapInv p.2) ∧
    (∀ (ex : TaskDict → Except String Value) (ops : List MA.AgentOp)
        (p : String × MA.Snapshot),
      p ∈ (MA.Agent.runOps ex {} ops).results → MA.snapInv p.2) :=
  ⟨fun ex ops aid nm ty p hmem =>
    resultsInv_run ex ops (EMA.initAgent aid nm ty)
      (fun q hq => absurd hq (by simp [EMA.initAgent])) p hmem,
   fun ex ops p hmem =>
    ma_resultsInv_runOps ex ops {} (fun q hq => absurd hq (by simp)) p hmem⟩

theorem C7_snapshot_exclusivity_witness :
    (("t1", ({ status := "failed", error := some "boom", completion_time := some 2 }
        : EMA.Snapshot))
      ∈ (EMA.EnhancedAgent.run c4exec (EMA.initAgent "a1" "n" "research")
          [EMA.AgentOp.assign c4task "f" 1, EMA.AgentOp.work 2]).results ∧
     EMA.snapInv ({ status := "failed", error := some "boom", completion_time := some 2 }
        : EMA.Snapshot)) ∧
    (("t1", ({ status := "failed", error := some "err", completion_time := some 2 }
        : MA.Snapshot))
      ∈ (MA.Agent.runOps (failExecOf "x") {}
          [MA.AgentOp.assign c4task "f" 1, MA.AgentOp.work 2]).results ∧
     MA.snapInv ({ status := "failed", error := some "err", completion_time := some 2 }
        : MA.Snapshot)) :=
  ⟨⟨by decide,
    C7_snapshot_exclusivity.1 c4exec [EMA.AgentOp.assign c4task "f" 1, EMA.AgentOp.work 2]
      "a1" "n" "research"
      ("t1", { status := "failed", error := some "boom", completion_time := some 2 })
      (by decide)⟩,
   ⟨by decide,
    C7_snapshot_exclusivity.2 (failExecOf "x")
      [MA.AgentOp.assign c4task "f" 1, MA.AgentOp.work 2]
      ("t1", { status := "failed", error := some "err", completion_time := some 2 })
      (by decide)⟩⟩

theorem workerTrace_get_started (ex : EMA.Exec) :
    ∀ (q : List TaskDict) (j : Nat) (hj : j < q.length),
      (EMA.workerTrace ex q).get? (2 * j)
        = some (EMA.Event.started (taskId (q.get ⟨j, hj⟩))) := by
  intro q
  induction q with
  | nil => intro j hj; simp at hj
  | cons t ts ih =>
    intro j hj
    cases j with
    | zero => rfl
    | succ j' =>
      have h2 : 2 * (j' + 1) = 2 * j' + 1 + 1 := by omega
      rw [h2]
      have htr : EMA.workerTrace ex (t :: ts)
          = EMA.Event.started (taskId t)
            :: EMA.Event.finished (taskId t) (EMA.execOk ex t) :: EMA.workerTrace ex ts := rfl
      rw [htr, List.get?_cons_succ, List.get?_cons_succ]
      exact ih j' (Nat.lt_of_succ_lt_succ hj)

theorem workerTrace_get_finished (ex : EMA.Exec) :
    ∀ (q : List TaskDict) (i : Nat) (hi : i < q.length),
      (EMA.workerTrace ex q).get? (2 * i + 1)
        = some (EMA.Event.finished (taskId (q.get ⟨i, hi⟩)) (EMA.execOk ex (q.get ⟨i, hi⟩))) := by
  intro q
  induction q with
  | nil => intro i hi; simp at hi
  | cons t ts ih =>
    intro i hi
    cases i with
    | zero => rfl
    | succ i' =>
      have h2 : 2 * (i' + 1) + 1 = 2 * i' + 1 + 1 + 1 := by omega
      rw [h2]
      have htr : EMA.workerTrace ex (t :: ts)
          = EMA.Event.started (taskId t)
            :: EMA.Event.finished (taskId t) (EMA.execOk ex t) :: EMA.workerTrace ex ts := rfl
      rw [htr, List.get?_cons_succ, List.get?_cons_succ]
      exact ih i' (Nat.lt_of_succ_lt_succ hi)

/-- C6: the single worker loop serves its queue strictly FIFO with one
task in flight at a time: for tasks at queue positions `i < j`, the
loop's event trace records the terminal transition of task `i` (at
trace position `2i+1`) strictly before it records the start of
processing of task `j` (at trace position `2j`). -/
theorem C6_fifo_order (ex : EMA.Exec) (q : List TaskDict) (i j : Nat)
    (hij : i < j) (hj : j < q.length) :
    (EMA.workerTrace ex q).get? (2 * i + 1)
      = some (EMA.Event.finished (taskId (q.get ⟨i, Nat.lt_trans hij hj⟩))
          (EMA.execOk ex (q.get ⟨i, Nat.lt_trans hij hj⟩))) ∧
    (EMA.workerTrace ex q).get? (2 * j)
      = some (EMA.Event.started (taskId (q.get ⟨j, hj⟩))) ∧
    2 * i + 1 < 2 * j :=
  ⟨workerTrace_get_finished ex q i (Nat.lt_trans hij hj),
   workerTrace_get_started ex q j hj, by omega⟩

theorem C6_fifo_order_witness :
    (EMA.workerTrace c4exec [taskA, taskB]).get? (2 * 0 + 1)
      = some (EMA.Event.finished "A" false) ∧
    (EMA.workerTrace c4exec [taskA, taskB]).get? (2 * 1)
      = some (EMA.Event.started "B") ∧
    2 * 0 + 1 < 2 * 1 :=
  C6_fifo_order c4exec [taskA, taskB] 0 1 (by decide) (by decide)

theorem collab_unfold (work : MA.MultiAgentSystem → MA.MultiAgentSystem)
    (sys : MA.MultiAgentSystem) (main : TaskDict) (subs : List TaskDict) (now : Nat) :
    MA.MultiAgentSystem.collaborative_task work sys main subs now =
      { main_task := main,
        subtasks := (MA.assignedIds sys now subs).map
          (fun tid => (tid, (MA.postWork work sys now subs).get_task_result tid)),
        combined_result := MA.MultiAgentSystem.combine_results
          ((MA.assignedIds sys now subs).map
            (fun tid => (tid, (MA.postWork work sys now subs).get_task_result tid))),
        status := if (MA.assignedIds sys now subs).all (fun tid =>
            let s := ((MA.postWork work sys now subs).get_task_result tid).status
            s == "completed" || s == "failed") then "completed" else "partial" } := rfl

/-- C1 counterexample: two subtasks are assigned and both reach a
terminal state before the deadline, one of them by failing; the
returned overall status is `'completed'`, not `'partial'`, while the
failed subtask's snapshot shows `'failed'` with an error and the other
shows `'completed'`. -/
theorem C1_cex :
    c1out.status = "completed" ∧
    c1out.status ≠ "partial" ∧
    alookup c1out.subtasks "task-1"
      = some { status := "failed", error := some "boom", completion_time := some 9 } ∧
    alookup c1out.subtasks "task-0"
      = some { status := "completed", result := some "done", completion_time := some 9 } := by
  refine ⟨by decide, by decide, by decide, by decide⟩

/-- C1 (amended): when exactly one assigned subtask's snapshot at the
final poll is `'failed'` (with an error) and every other assigned
subtask's snapshot is `'completed'`, the returned overall status is
`'completed'` — the polling loop only distinguishes terminal from
non-terminal, so `'partial'` arises only when some subtask misses the
deadline — while the failed subtask's snapshot appears as `'failed'`
with its error among the returned per-subtask results and all other
returned snapshots are `'completed'`. -/
theorem C1_one_failure_all_terminal (work : MA.MultiAgentSystem → MA.MultiAgentSystem)
    (sys : MA.MultiAgentSystem) (main : TaskDict) (subs : List TaskDict) (now : Nat) (f : String)
    (hmem : f ∈ MA.assignedIds sys now subs)
    (hfail : ((MA.postWork work sys now subs).get_task_result f).status = "failed")
    (herr : ((MA.postWork work sys now subs).get_task_result f).error.isSome = true)
    (hrest : ∀ tid ∈ MA.assignedIds sys now subs, tid ≠ f →
      ((MA.postWork work sys now subs).get_task_result tid).status = "completed") :
    (MA.MultiAgentSystem.collaborative_task work sys main subs now).status = "completed" ∧
    (f, (MA.postWork work sys now subs).get_task_result f)
      ∈ (MA.MultiAgentSystem.collaborative_task work sys main subs now).subtasks ∧
    (∀ p ∈ (MA.MultiAgentSystem.collaborative_task work sys main subs now).subtasks,
      p.1 ≠ f → p.2.status = "completed") := by
  have hall : (MA.assignedIds sys now subs).all (fun tid =>
      let s := ((MA.postWork work sys now subs).get_task_result tid).status
      s == "completed" || s == "failed") = true := by
    rw [List.all_eq_true]
    intro tid htid
    by_cases hf : tid = f
    · subst hf
      simp [hfail]
    · simp [hrest tid htid hf]
  refine ⟨?_, ?_, ?_⟩
  · rw [collab_unfold]
    simp [hall]
  · rw [collab_unfold]
    exact List.mem_map_of_mem _ hmem
  · intro p hp hne
    rw [collab_unfold] at hp
    simp only [List.mem_map] at hp
    obtain ⟨tid, htid, hpe⟩ := hp
    have h1 : p.1 = tid := by rw [← hpe]
    have h2 : p.2 = (MA.postWork work sys now subs).get_task_result tid := by rw [← hpe]
    rw [h2]
    exact hrest tid htid (fun he => hne (by rw [h1, he]))

theorem C1_one_failure_all_terminal_witness :
    (MA.MultiAgentSystem.collaborative_task (MA.runAllAgents exExecOf 9) exSys exMain
        [subResearch, subCoding] 5).status = "completed" ∧
    ("task-1", (MA.postWork (MA.runAllAgents exExecOf 9) exSys 5
        [subResearch, subCoding]).get_task_result "task-1")
      ∈ (MA.MultiAgentSystem.collaborative_task (MA.runAllAgents exExecOf 9) exSys exMain
          [subResearch, subCoding] 5).subtasks ∧
    (∀ p ∈ (MA.MultiAgentSystem.collaborative_task (MA.runAllAgents exExecOf 9) exSys exMain
        [subResearch, subCoding] 5).subtasks,
      p.1 ≠ "task-1" → p.2.status = "completed") :=
  C1_one_failure_all_terminal (MA.runAllAgents exExecOf 9) exSys exMain
    [subResearch, subCoding] 5 "task-1" (by decide) (by decide) (by decide) (by decide)

/-- C3 counterexample: with no coding agent registered, the code-typed
subtask's assignment returns `None`; the returned per-subtask results
contain no entry for it and no failed record at all — the subtask is
silently dropped rather than recorded as failed. -/
theorem C3_cex :
    (MA.MultiAgentSystem.assign_task sysNC subCodingWithId none 5).2.2 = none ∧
    alookup c3out.subtasks "sub-1" = none ∧
    (∀ p ∈ c3out.subtasks, p.2.status ≠ "failed") ∧
    c3out.subtasks.length = 1 := by
  refine ⟨by decide, by decide, by decide, by decide⟩

/-- C3 (amended): a subtask whose assignment fails (its routed agent id
is not registered) is silently skipped: the collaborative run is the
same as the run without that subtask, so it is excluded from polling
and from the returned per-subtask results, and no failed record is
created for it. -/
theorem C3_unassignable_subtask_skipped (work : MA.MultiAgentSystem → MA.MultiAgentSystem)
    (sys : MA.MultiAgentSystem) (main s : TaskDict) (rest : List TaskDict) (now : Nat)
    (i : String) (hid : s.id = some i)
    (hno : alookup sys.agents (MA.MultiAgentSystem.determine_best_agent s) = none) :
    MA.MultiAgentSystem.collaborative_task work sys main (s :: rest) now
      = MA.MultiAgentSystem.collaborative_task work sys main rest now := by
  have hassign : MA.MultiAgentSystem.assign_task sys s none now = (s, sys, none) := by
    simp [MA.MultiAgentSystem.assign_task, hid, hno]
  have hsub : MA.MultiAgentSystem.assignSubtasks sys now (s :: rest)
      = MA.MultiAgentSystem.assignSubtasks sys now rest := by
    simp [MA.MultiAgentSystem.assignSubtasks, hassign]
  rw [collab_unfold, collab_unfold]
  unfold MA.assignedIds MA.postWork
  rw [hsub]

theorem C3_unassignable_subtask_skipped_witness :
    subCodingWithId.id = some "sub-1" ∧
    alookup sysNC.agents (MA.MultiAgentSystem.determine_best_agent subCodingWithId) = none ∧
    MA.MultiAgentSystem.collaborative_task (MA.runAllAgents exExecOf 9) sysNC exMain
        [subCodingWithId, subResearch] 5
      = MA.MultiAgentSystem.collaborative_task (MA.runAllAgents exExecOf 9) sysNC exMain
          [subResearch] 5 :=
  ⟨rfl, by decide,
   C3_unassignable_subtask_skipped (MA.runAllAgents exExecOf 9) sysNC exMain subCodingWithId
     [subResearch] 5 "sub-1" rfl (by decide)⟩
